import Mathlib

/-!
Verification development for the `git-review` repository (files
`gitreview.py` and `stats.py`).  The Python sources are shallowly embedded:
pure functions become Lean functions, the per-iteration loop bodies become
explicit state-transition functions, subprocess calls become explicit
`ProcResult` inputs, Python exceptions become `Except`/`Option`, and Python
floats become `ℚ` (every score produced by the program is an exact decimal:
`d.dd` parsed from pylint output, `10 - n/10` from cppcheck, or the sentinel
`-100.0`; all of these and their differences are exactly representable, so
rational arithmetic coincides with the IEEE arithmetic the sources perform
on these values).
-/

/-- Python's `\s` character class (ASCII part): space, tab, newline, carriage
return, vertical tab (11) and form feed (12).  `Char.isWhitespace` covers the
first four. -/
def pyWs (c : Char) : Bool :=
  c.isWhitespace || c = Char.ofNat 11 || c = Char.ofNat 12

/-- Numeric value of a digit character. -/
def digitVal (c : Char) : ℕ := c.toNat - 48

/-- Python `int()` of a string of digit characters. -/
def digitsToNat (ds : List Char) : ℕ :=
  ds.foldl (fun n c => 10 * n + digitVal c) 0

/--
Backtracking search for the greedy `.*` prefix of all the `re.match` patterns
used by the sources.  `re.match(r'.*REST', s)` tries the longest possible
prefix for `.*` first, so the suffix position where `REST` is matched is the
largest one for which `REST` succeeds; moreover `.` does not match a newline,
so `.*` can never advance past a `'\n'` character (the rest of the pattern may
still be tried at the newline itself).  `lastMatchB f l` returns `f` applied
to the deepest suffix of `l` on which it succeeds, never descending past a
newline — exactly that semantics.
-/
def lastMatchB {α : Type} (f : List Char → Option α) : List Char → Option α
  | [] => f []
  | c :: cs =>
    if c = '\n' then f (c :: cs)
    else
      match lastMatchB f cs with
      | some v => some v
      | none => f (c :: cs)

/-- Python `str.strip()` on a character list: drop leading and trailing
whitespace. -/
def pyStrip (l : List Char) : List Char :=
  ((l.dropWhile pyWs).reverse.dropWhile pyWs).reverse

/-- Python `str.split('\n')` on a character list: the groups between newline
characters (empty groups kept, as Python does). -/
def splitNL : List Char → List (List Char)
  | [] => [[]]
  | c :: cs =>
    match splitNL cs with
    | [] => [[]]
    | g :: gs => if c = '\n' then [] :: g :: gs else (c :: g) :: gs

/--
Suffix matcher for `(\d\.\d\d)/10.*` — the part of the pylint score pattern
`.*(\d\.\d\d)/10.*` after the greedy prefix (`gitreview.py` line 29,
`stats.py` line 19).  The trailing `.*` always succeeds (it may match the
empty string), so only the seven fixed characters are constrained; the
captured group `d.dd` is returned as the rational `float("d.dd")`.
-/
def scoreRest (l : List Char) : Option ℚ :=
  match l with
  | d0 :: c1 :: d1 :: d2 :: c4 :: c5 :: c6 :: _ =>
    if d0.isDigit ∧ c1 = '.' ∧ d1.isDigit ∧ d2.isDigit ∧ c4 = '/' ∧ c5 = '1' ∧ c6 = '0' then
      some (((100 * digitVal d0 + 10 * digitVal d1 + digitVal d2 : ℕ) : ℚ) / 100)
    else none
  | _ => none

/-- `re.match(r'.*(\d\.\d\d)/10.*', line)`: the value of group 1 under greedy
matching, as a rational, or `none` when the line does not match. -/
def scoreLine (s : String) : Option ℚ :=
  lastMatchB scoreRest s.toList

/--
Suffix matcher for `\((.+)\)$` — the pylint finding pattern `.*\((.+)\)$`
after the greedy prefix (`gitreview.py` line 38, `stats.py` lines 30 and 34).
`$` anchors at the end of the string, so after a `'('` the capture is forced
to be everything up to (excluding) the final character, which must be `')'`;
the capture must be non-empty and `.` cannot match a newline.
-/
def errRest (l : List Char) : Option String :=
  match l with
  | c :: rest =>
    if c = '(' then
      match rest.getLast? with
      | some d =>
        if d = ')' then
          let mid := rest.dropLast
          if mid ≠ [] ∧ ¬ '\n' ∈ mid then some (String.mk mid) else none
        else none
      | none => none
    else none
  | [] => none

/-- `re.match(r'.*\((.+)\)$', line.strip())`: group 1 under greedy matching,
applied to the stripped line, or `none`. -/
def errLine (line : String) : Option String :=
  lastMatchB errRest (pyStrip line.toList)

/--
Scanner for the backtracking of `(.+)\) ` inside the cppcheck finding pattern
(`gitreview.py` line 84): the greedy `.+` makes the regex pick the *last*
occurrence of `") "`; the capture is everything before it, must be non-empty,
and cannot contain a newline (`.` does not match `'\n'`, which also rules out
every earlier occurrence once a newline intervenes).
-/
def cppClose : List Char → Option (List Char)
  | [] => none
  | c :: cs =>
    if c = '\n' then none
    else
      match cppClose cs with
      | some pre => some (c :: pre)
      | none =>
        if c = ')' ∧ cs.head? = some ' ' then some [] else none

/-- Suffix matcher for `\d\]: \((.+)\) ` — the cppcheck finding pattern
`.*\d\]: \((.+)\) ` after the greedy prefix. -/
def cppErrRest (l : List Char) : Option String :=
  match l with
  | d :: b :: c :: sp :: p :: rest =>
    if d.isDigit ∧ b = ']' ∧ c = ':' ∧ sp = ' ' ∧ p = '(' then
      match cppClose rest with
      | some pre => if pre ≠ [] then some (String.mk pre) else none
      | none => none
    else none
  | _ => none

/-- `re.match(r'.*\d\]: \((.+)\) ', line.strip())`: group 1 under greedy
matching, or `none`. -/
def cppErrLine (line : String) : Option String :=
  lastMatchB cppErrRest (pyStrip line.toList)

/--
Suffix matcher for `\s\|\s(\d+)\s` — the change-count pattern
`.*\s\|\s(\d+)\s` after the greedy prefix (`gitreview.py` line 113,
`stats.py` line 62).  `\d+` is greedy, so the capture is the maximal digit
run, which must be non-empty and followed by a whitespace character.
-/
def chgRest (l : List Char) : Option ℕ :=
  match l with
  | a :: b :: c :: rest =>
    if pyWs a ∧ b = '|' ∧ pyWs c then
      let ds := rest.takeWhile Char.isDigit
      match rest.drop ds.length with
      | e :: _ => if ds ≠ [] ∧ pyWs e then some (digitsToNat ds) else none
      | [] => none
    else none
  | _ => none

/-- `re.match(r'.*\s\|\s(\d+)\s', line)`: `int(group 1)` under greedy
matching, or `none`. -/
def chgLine (line : String) : Option ℕ :=
  lastMatchB chgRest line.toList

/-- Suffix matcher for an extension pattern such as `\.py\s` (after the greedy
prefix of `.*\.py\s`): the literal extension characters followed by one
whitespace character. -/
def extRest (ext : List Char) (l : List Char) : Option Unit :=
  if ext.isPrefixOf l then
    match l.drop ext.length with
    | c :: _ => if pyWs c then some () else none
    | [] => none
  else none

/-- Whether `re.match(r'.*EXT\s', line)` succeeds (boolean use only). -/
def extMatch (ext : List Char) (line : String) : Bool :=
  (lastMatchB (extRest ext) line.toList).isSome

/-- `output.split('\n')` keeping the original lines whose `strip()` is
non-empty — the list comprehension of `Analysis_Pylint.run` /
`Analysis_Cppcheck.run` (`gitreview.py` lines 25 and 75) and `run_pylint`
(`stats.py` line 14). -/
def splitLines (s : String) : List String :=
  ((splitNL s.toList).filter (fun l => pyStrip l ≠ [])).map String.mk

/-- `[line.strip() for line in s.split('\n') if line.strip()]` — the stripped
variant used for git diff output (`gitreview.py` line 179, `stats.py`
line 56). -/
def splitStrip (s : String) : List String :=
  ((((splitNL s.toList).map pyStrip).filter (fun l => l ≠ [])).map String.mk)

/-- Python's substring test `pat in s`, on character lists. -/
def containsSub (pat : List Char) : List Char → Bool
  | [] => pat.isPrefixOf []
  | c :: cs => pat.isPrefixOf (c :: cs) || containsSub pat cs

/-- The result of one subprocess invocation: exit code and captured combined
stdout/stderr text. -/
structure ProcResult where
  exitCode : ℕ
  stdout : String
  deriving DecidableEq, Repr

/-- The Python exceptions the embedded code can raise. -/
inductive PyErr where
  /-- `subprocess.CalledProcessError`, raised by `subprocess.run(...,
  check=True)` on a non-zero exit code. -/
  | calledProcessError
  /-- `IndexError`, raised by `output[-1]` on an empty list. -/
  | indexError
  deriving DecidableEq, Repr

/-- `run_process` (`gitreview.py` lines 120-122): raises
`CalledProcessError` when `check` is set and the process exited non-zero,
otherwise returns the captured output. -/
def run_process (check : Bool) (p : ProcResult) : Except PyErr String :=
  if check ∧ p.exitCode ≠ 0 then .error .calledProcessError else .ok p.stdout

/-- First-occurrence deduplication: the key sequence of a Python
`Counter`/`dict` built from a list (keys in first-occurrence order). -/
def firstOccurrences : List String → List String
  | [] => []
  | x :: xs => x :: (firstOccurrences xs).filter (fun y => y ≠ x)

/-- Association-list lookup with string equality — Python `dict` lookup on
the insertion-ordered pair list we use to model dicts. -/
def lookupA {β : Type} (a : String) : List (String × β) → Option β
  | [] => none
  | p :: ps => if p.1 = a then some p.2 else lookupA a ps

/--
One step of the shared positive-diff loop (`gitreview.py` lines 48-55 and
94-101, `stats.py` lines 42-49): for one key `name` of `Counter(afterE)`,
compute `diff` (the after-count, minus the before-count when the key is also
in `Counter(beforeE)`) and record it when non-zero.
-/
def diffStep (beforeE afterE : List String) (acc : List (String × Int)) (name : String) :
    List (String × Int) :=
  let diff : Int :=
    if name ∈ beforeE then (afterE.count name : Int) - (beforeE.count name : Int)
    else (afterE.count name : Int)
  if diff ≠ 0 then acc ++ [(name, diff)] else acc

/-- The `for name in after_errors` loop shared verbatim by all three
`match_errors` variants: iterate over the keys of `Counter(afterE)` in
first-occurrence order, inserting non-zero diffs. -/
def posDiff (beforeE afterE : List String) : List (String × Int) :=
  (firstOccurrences afterE).foldl (diffStep beforeE afterE) []

/-- One step of the back-fill loop of `Analysis_Pylint.match_errors`
(`gitreview.py` lines 57-59): for one key `name` of `Counter(beforeE)`, add
`-before_count` when `name` is in neither the dict built so far nor
`Counter(afterE)`. -/
def backStep (beforeE afterE : List String) (acc : List (String × Int)) (name : String) :
    List (String × Int) :=
  if lookupA name acc = none ∧ ¬ name ∈ afterE then
    acc ++ [(name, -(beforeE.count name : Int))]
  else acc

namespace GitReview

/-- `Analysis_Pylint._get_errors` (`gitreview.py` lines 35-41): the trailing
parenthesized token of each stripped line matching `.*\((.+)\)$`, excluding
lines containing `"previous run"`. -/
def Analysis_Pylint.get_errors (output : List String) : List String :=
  output.filterMap (fun line =>
    match errLine line with
    | some name =>
      if containsSub ("previous run").toList line.toList then none else some name
    | none => none)

/-- `Analysis_Pylint.get_score` (`gitreview.py` lines 28-33): examine
`output[-1]` (`none` models the `IndexError` raised on an empty list); return
the matched `d.dd` rating or the sentinel `-100.0`. -/
def Analysis_Pylint.get_score (output : List String) : Option ℚ :=
  match output.getLast? with
  | none => none
  | some last =>
    match scoreLine last with
    | some q => some q
    | none => some (-100)

/-- `Analysis_Pylint.match_errors` (`gitreview.py` lines 43-61): the shared
positive-diff loop followed by the back-fill loop `for name in before_errors`
(lines 57-59), which adds `-before_count` for keys not already present and
not occurring in `after`.  The fold carries the growing dict so the
`name not in diff_errors` test sees earlier back-fill insertions, exactly as
the Python loop does. -/
def Analysis_Pylint.match_errors (before after : List String) : List (String × Int) :=
  let beforeE := Analysis_Pylint.get_errors before
  let afterE := Analysis_Pylint.get_errors after
  (firstOccurrences beforeE).foldl (backStep beforeE afterE) (posDiff beforeE afterE)

/-- `Analysis_Pylint.relevant_line` (`gitreview.py` lines 63-64):
`re.match(r'.*\.py\s', line)`. -/
def Analysis_Pylint.relevant_line (line : String) : Bool :=
  extMatch ['.', 'p', 'y'] line

/-- `Analysis_Cppcheck.get_score` (`gitreview.py` lines 78-79):
`10.0 - len(output) / 10.0`.  Total — this variant cannot raise. -/
def Analysis_Cppcheck.get_score (output : List String) : ℚ :=
  10 - (output.length : ℚ) / 10

/-- `Analysis_Cppcheck._get_errors` (`gitreview.py` lines 81-87). -/
def Analysis_Cppcheck.get_errors (output : List String) : List String :=
  output.filterMap cppErrLine

/-- `Analysis_Cppcheck.match_errors` (`gitreview.py` lines 89-103): only the
shared positive-diff loop; no back-fill. -/
def Analysis_Cppcheck.match_errors (before after : List String) : List (String × Int) :=
  posDiff (Analysis_Cppcheck.get_errors before) (Analysis_Cppcheck.get_errors after)

/-- `Analysis_Cppcheck.relevant_line` (`gitreview.py` lines 105-106). -/
def Analysis_Cppcheck.relevant_line (line : String) : Bool :=
  extMatch ['.', 'c', 'p', 'p'] line || extMatch ['.', 'h', 'p', 'p'] line

/-- `check_stats` (`gitreview.py` lines 109-117): sum the captured change
counts over the relevant lines of the diff report. -/
def check_stats (diff : List String) (relevant : String → Bool) : ℕ :=
  diff.foldl
    (fun total line =>
      if relevant line then
        match chgLine line with
        | some n => total + n
        | none => total
      else total)
    0

end GitReview

namespace Stats

/-- `get_pylint_score` (`stats.py` lines 18-23); its body is textually
identical to `Analysis_Pylint.get_score`. -/
def get_pylint_score : List String → Option ℚ :=
  GitReview.Analysis_Pylint.get_score

/-- The error extraction inlined in `match_pylint_errors` (`stats.py` lines
27-36); same regex and `"previous run"` filter as
`Analysis_Pylint._get_errors`. -/
def get_errors : List String → List String :=
  GitReview.Analysis_Pylint.get_errors

/-- `match_pylint_errors` (`stats.py` lines 26-51): the shared positive-diff
loop only; no back-fill for disappeared rules. -/
def match_pylint_errors (before after : List String) : List (String × Int) :=
  posDiff (get_errors before) (get_errors after)

/-- `check_stats` (`stats.py` lines 54-66).  The `git diff HEAD HEAD~1
--stat` subprocess is run *without* `check=True`, so the exit code is
ignored: the function parses whatever output was captured and never raises
on a failing git invocation. -/
def check_stats (diffProc : ProcResult) : ℕ :=
  (splitStrip diffProc.stdout).foldl
    (fun total line =>
      if extMatch ['.', 'p', 'y'] line then
        match chgLine line with
        | some n => total + n
        | none => total
      else total)
    0

end Stats

/-- Helper instance: decidable equality of one stats-dict entry (instance
search needs the eta-expanded form). -/
instance : DecidableEq (String × List (ℚ × ℕ × List (String × Int))) :=
  fun _ _ => inferInstance

/-- The loop state of the backward walk: the carried before/after snapshots
and scores, the last computed error delta, and the per-author stats dict
(`stats[author]` is the ordered list of recorded
`(scoreDelta, linesChanged, errorDelta)` triples). -/
structure ReviewState where
  before_output : List String
  before_score : ℚ
  after_output : List String
  after_score : ℚ
  diff_errors : List (String × Int)
  stats : List (String × List (ℚ × ℕ × List (String × Int)))
  deriving DecidableEq, Repr

/-- The external observations consumed by one loop iteration: the four git
subprocess results and the analysis-tool subprocess result (used only when
the iteration re-runs the tool). -/
structure IterInput where
  authorProc : ProcResult
  hashProc : ProcResult
  diffProc : ProcResult
  resetProc : ProcResult
  runProc : ProcResult
  deriving DecidableEq, Repr

/-- One iteration's outcome, instrumented with two ghost observations used
only in theorem statements: whether the analysis tool was re-run (`ran`) and
the `new_data` triple appended to the stats dict, if any (`recorded`). -/
structure IterResult where
  state : ReviewState
  ran : Bool
  recorded : Option (ℚ × ℕ × List (String × Int))
  deriving DecidableEq, Repr

/-- `stats[author].append(new_data)` / `stats[author] = [new_data]`
(`gitreview.py` lines 205-209, `stats.py` lines 141-145). -/
def statsAdd (stats : List (String × List (ℚ × ℕ × List (String × Int))))
    (author : String) (d : ℚ × ℕ × List (String × Int)) :
    List (String × List (ℚ × ℕ × List (String × Int))) :=
  if lookupA author stats = none then stats ++ [(author, [d])]
  else stats.map (fun p => if p.1 = author then (p.1, p.2 ++ [d]) else p)

namespace GitReview

/-- The pluggable-tool interface consumed by `review` — the duck-typed
method set of `Analysis_Pylint` / `Analysis_Cppcheck`.  `get_score` returns
`none` when the Python method would raise. -/
structure AnalysisTool where
  get_score : List String → Option ℚ
  match_errors : List String → List String → List (String × Int)
  relevant_line : String → Bool

/-- `Analysis_Pylint` as an `AnalysisTool`. -/
def pylintTool : AnalysisTool :=
  ⟨Analysis_Pylint.get_score, Analysis_Pylint.match_errors, Analysis_Pylint.relevant_line⟩

/-- `Analysis_Cppcheck` as an `AnalysisTool` (its `get_score` is total). -/
def cppcheckTool : AnalysisTool :=
  ⟨fun out => some (Analysis_Cppcheck.get_score out), Analysis_Cppcheck.match_errors,
    Analysis_Cppcheck.relevant_line⟩

/-- The `lines_changed` value computed by one iteration of `review`
(`gitreview.py` lines 178-180): strip and filter the diff output, then
`check_stats`. -/
def lines_changed (tool : AnalysisTool) (inp : IterInput) : ℕ :=
  check_stats (splitStrip inp.diffProc.stdout) tool.relevant_line

/--
One iteration of the `review` loop (`gitreview.py` lines 168-210).  The four
git primitives go through `run_process` with `check=True`, so any non-zero
exit propagates as `CalledProcessError`; the tool re-run (`check=False`)
cannot fail, but `get_score` on its output can raise.  A step is recorded
whenever `lines_changed > 0` (the `continue` at line 201 drops only
`lines_changed <= 0`).
-/
def review_iteration (tool : AnalysisTool) (inp : IterInput) (s : ReviewState) :
    Except PyErr IterResult :=
  match run_process true inp.authorProc with
  | .error e => .error e
  | .ok author =>
    match run_process true inp.hashProc with
    | .error e => .error e
    | .ok _commit =>
      match run_process true inp.diffProc with
      | .error e => .error e
      | .ok _diffText =>
        let lc := lines_changed tool inp
        match run_process true inp.resetProc with
        | .error e => .error e
        | .ok _ =>
          if 0 < lc then
            let out := splitLines inp.runProc.stdout
            match tool.get_score out with
            | none => .error .indexError
            | some sc =>
              let dErr := tool.match_errors out s.after_output
              let d := s.after_score - sc
              let data := (d, lc, dErr)
              .ok ⟨⟨out, sc, out, sc, dErr, statsAdd s.stats author data⟩, true, some data⟩
          else
            .ok ⟨⟨s.before_output, s.before_score, s.before_output, s.before_score,
              s.diff_errors, s.stats⟩, false, none⟩

/-- The initialization before the loop (`gitreview.py` lines 154-166): one
tool run (whose subprocess is not checked) seeds both snapshots and both
scores; `stats` and `diff_errors` start empty. -/
def review_init (tool : AnalysisTool) (runProc : ProcResult) : Except PyErr ReviewState :=
  let out := splitLines runProc.stdout
  match tool.get_score out with
  | none => .error .indexError
  | some sc => .ok ⟨out, sc, out, sc, [], []⟩

/-- The `for i in range(options.iterations)` loop of `review`, one
`IterInput` per iteration. -/
def review_walk (tool : AnalysisTool) : List IterInput → ReviewState → Except PyErr ReviewState
  | [], s => .ok s
  | inp :: rest, s =>
    match review_iteration tool inp s with
    | .error e => .error e
    | .ok r => review_walk tool rest r.state

/-- The per-author reduction of `output_stats` (`gitreview.py` lines
137-150): total score, total changes, and the `score / changes` ratio. -/
def output_row (results : List (ℚ × ℕ × List (String × Int))) : ℚ × ℕ × ℚ :=
  let score := (results.map (fun t => t.1)).sum
  let changes := (results.map (fun t => t.2.1)).sum
  (score, changes, score / (changes : ℚ))

end GitReview

namespace Stats

/-- The `lines_changed` value computed by one iteration of `main`
(`stats.py` line 116), via the unchecked `check_stats` subprocess. -/
def lines_changed (inp : IterInput) : ℕ :=
  check_stats inp.diffProc

/--
One iteration of the `main` loop (`stats.py` lines 104-147).  The author,
hash and reset subprocesses use `check=True`; the `git diff` inside
`check_stats` does **not**, so its exit code is ignored.  A step is recorded
only when the `continue` test `abs(diff) < 0.005 or lines_changed == 0`
fails.
-/
def stats_iteration (inp : IterInput) (s : ReviewState) : Except PyErr IterResult :=
  match run_process true inp.authorProc with
  | .error e => .error e
  | .ok author =>
    match run_process true inp.hashProc with
    | .error e => .error e
    | .ok _commit =>
      let lc := lines_changed inp
      match run_process true inp.resetProc with
      | .error e => .error e
      | .ok _ =>
        if 0 < lc then
          let out := splitLines inp.runProc.stdout
          match get_pylint_score out with
          | none => .error .indexError
          | some sc =>
            let dErr := match_pylint_errors out s.after_output
            let d := s.after_score - sc
            if |d| < 1 / 200 then
              .ok ⟨⟨out, sc, out, sc, dErr, s.stats⟩, true, none⟩
            else
              let data := (d, lc, dErr)
              .ok ⟨⟨out, sc, out, sc, dErr, statsAdd s.stats author data⟩, true, some data⟩
        else
          .ok ⟨⟨s.before_output, s.before_score, s.before_output, s.before_score,
            s.diff_errors, s.stats⟩, false, none⟩

/-- The initialization before the loop (`stats.py` lines 97-102). -/
def stats_init (runProc : ProcResult) : Except PyErr ReviewState :=
  let out := splitLines runProc.stdout
  match get_pylint_score out with
  | none => .error .indexError
  | some sc => .ok ⟨out, sc, out, sc, [], []⟩

/-- The `for i in range(ITERATIONS)` loop of `main`. -/
def stats_walk : List IterInput → ReviewState → Except PyErr ReviewState
  | [], s => .ok s
  | inp :: rest, s =>
    match stats_iteration inp s with
    | .error e => .error e
    | .ok r => stats_walk rest r.state

/-- The per-author reduction of `output_stats` (`stats.py` lines 81-93),
identical to the gitreview one. -/
def output_row (results : List (ℚ × ℕ × List (String × Int))) : ℚ × ℕ × ℚ :=
  GitReview.output_row results

end Stats

/-! ### Helper lemmas about the shared diff machinery -/

theorem mem_firstOccurrences : ∀ (l : List String) (x : String),
    x ∈ firstOccurrences l ↔ x ∈ l := by
  intro l
  induction l with
  | nil => intro x; simp [firstOccurrences]
  | cons y ys ih =>
    intro x
    simp only [firstOccurrences, List.mem_cons, List.mem_filter, ih]
    by_cases hxy : x = y
    · simp [hxy]
    · simp [hxy]

theorem lookupA_append_of_none {β : Type} {a : String} {l₁ l₂ : List (String × β)}
    (h : lookupA a l₁ = none) : lookupA a (l₁ ++ l₂) = lookupA a l₂ := by
  induction l₁ with
  | nil => simp
  | cons p ps ih =>
    simp only [lookupA] at h ⊢
    split at h
    · exact absurd h (by simp)
    · rw [if_neg ‹¬p.1 = a›]
      exact ih h

theorem lookupA_append_of_some {β : Type} {a : String} {v : β} {l₁ l₂ : List (String × β)}
    (h : lookupA a l₁ = some v) : lookupA a (l₁ ++ l₂) = some v := by
  induction l₁ with
  | nil => simp [lookupA] at h
  | cons p ps ih =>
    simp only [lookupA] at h ⊢
    split at h
    · rw [if_pos ‹p.1 = a›]
      exact h
    · rw [if_neg ‹¬p.1 = a›]
      exact ih h

theorem lookupA_eq_none_of_forall {β : Type} {a : String} {l : List (String × β)}
    (h : ∀ p ∈ l, p.1 ≠ a) : lookupA a l = none := by
  induction l with
  | nil => rfl
  | cons p ps ih =>
    simp only [lookupA]
    split
    · exact absurd ‹p.1 = a› (h p (by simp))
    · exact ih (fun q hq => h q (by simp [hq]))

theorem mem_foldl_diffStep {bE aE : List String} :
    ∀ (names : List String) (acc : List (String × Int)) (p : String × Int),
      p ∈ names.foldl (diffStep bE aE) acc → p ∈ acc ∨ (p.1 ∈ names ∧ p.2 ≠ 0) := by
  intro names
  induction names with
  | nil => intro acc p h; exact Or.inl h
  | cons x xs ih =>
    intro acc p h
    rcases ih (diffStep bE aE acc x) p h with h' | h'
    · simp only [diffStep] at h'
      split at h' <;> split at h'
      · rcases List.mem_append.mp h' with h'' | h''
        · exact Or.inl h''
        · rcases List.mem_singleton.mp h'' with rfl
          exact Or.inr ⟨by simp, by assumption⟩
      · exact Or.inl h'
      · rcases List.mem_append.mp h' with h'' | h''
        · exact Or.inl h''
        · rcases List.mem_singleton.mp h'' with rfl
          exact Or.inr ⟨by simp, by assumption⟩
      · exact Or.inl h'
    · exact Or.inr ⟨List.mem_cons_of_mem _ h'.1, h'.2⟩

theorem mem_posDiff {bE aE : List String} {p : String × Int} (h : p ∈ posDiff bE aE) :
    p.1 ∈ aE ∧ p.2 ≠ 0 := by
  rcases mem_foldl_diffStep (firstOccurrences aE) [] p h with h' | h'
  · simp at h'
  · exact ⟨(mem_firstOccurrences aE p.1).mp h'.1, h'.2⟩

theorem lookupA_posDiff_none {bE aE : List String} {a : String} (h : ¬ a ∈ aE) :
    lookupA a (posDiff bE aE) = none :=
  lookupA_eq_none_of_forall (fun p hp hpa => h (hpa ▸ (mem_posDiff hp).1))

theorem lookupA_foldl_backStep_some {bE aE : List String} {a : String} {v : Int} :
    ∀ (names : List String) (acc : List (String × Int)), lookupA a acc = some v →
      lookupA a (names.foldl (backStep bE aE) acc) = some v := by
  intro names
  induction names with
  | nil => intro acc h; exact h
  | cons x xs ih =>
    intro acc h
    refine ih (backStep bE aE acc x) ?_
    unfold backStep
    split
    · exact lookupA_append_of_some h
    · exact h

theorem lookupA_foldl_backStep {bE aE : List String} {a : String} :
    ∀ (names : List String) (acc : List (String × Int)), a ∈ names → ¬ a ∈ aE →
      lookupA a acc = none →
      lookupA a (names.foldl (backStep bE aE) acc) = some (-(bE.count a : Int)) := by
  intro names
  induction names with
  | nil => intro acc h; simp at h
  | cons x xs ih =>
    intro acc hmem hna hnone
    by_cases hxa : x = a
    · subst hxa
      have hstep : backStep bE aE acc x = acc ++ [(x, -(bE.count x : Int))] := by
        unfold backStep
        rw [if_pos ⟨hnone, hna⟩]
      refine lookupA_foldl_backStep_some xs _ ?_
      rw [hstep, lookupA_append_of_none hnone]
      simp [lookupA]
    · have hmem' : a ∈ xs := by
        rcases List.mem_cons.mp hmem with h | h
        · exact absurd h.symm hxa
        · exact h
      refine ih _ hmem' hna ?_
      unfold backStep
      split
      · rw [lookupA_append_of_none hnone]
        simp [lookupA, hxa]
      · exact hnone

theorem mem_foldl_backStep {bE aE : List String} :
    ∀ (names : List String) (acc : List (String × Int)) (p : String × Int),
      p ∈ names.foldl (backStep bE aE) acc →
      p ∈ acc ∨ (p.1 ∈ names ∧ p.2 = -(bE.count p.1 : Int)) := by
  intro names
  induction names with
  | nil => intro acc p h; exact Or.inl h
  | cons x xs ih =>
    intro acc p h
    rcases ih (backStep bE aE acc x) p h with h' | h'
    · unfold backStep at h'
      split at h'
      · rcases List.mem_append.mp h' with h'' | h''
        · exact Or.inl h''
        · refine Or.inr ?_
          rcases List.mem_singleton.mp h'' with rfl
          exact ⟨by simp, by simp⟩
      · exact Or.inl h'
    · exact Or.inr ⟨List.mem_cons_of_mem _ h'.1, h'.2⟩

/-! ### Claims about the error-delta operation (C4, C5, C9) -/

/-- The spec's literal example inputs for C4: the rule token is mid-line. -/
def c4_before : List String := ["a.py:1: (unused-variable) x"]

/-- Second literal example input for C4. -/
def c4_after : List String := ["a.py:1: (unused-variable) x", "a.py:2: (unused-variable) y"]

/-- Inputs as the counterexample forces them for C4: the rule token is the
trailing parenthesized token, as real pylint output has it. -/
def c4_before_fixed : List String := ["a.py:1: x (unused-variable)"]

/-- Second fixed input for C4. -/
def c4_after_fixed : List String :=
  ["a.py:1: x (unused-variable)", "a.py:2: y (unused-variable)"]

/--
C4 counterexample: on the claim's literal inputs — whose parenthesized rule
token is *not* at end of line, so `.*\((.+)\)$` matches neither line — both
pylint error-delta variants return the empty mapping, not
`{"unused-variable": 1}`.
-/
theorem C4_counterexample :
    GitReview.Analysis_Pylint.match_errors c4_before c4_after = [] ∧
    Stats.match_pylint_errors c4_before c4_after = [] ∧
    ([] : List (String × Int)) ≠ [("unused-variable", 1)] :=
  ⟨by decide, by decide, by decide⟩

/--
C4 amended: with the rule identifier as the trailing parenthesized token
(`"a.py:1: x (unused-variable)"` style), both pylint error-delta variants
return exactly `{"unused-variable": 1}` on the example pair: after-count 2
minus before-count 1.
-/
theorem C4_theorem :
    GitReview.Analysis_Pylint.match_errors c4_before_fixed c4_after_fixed =
      [("unused-variable", 1)] ∧
    Stats.match_pylint_errors c4_before_fixed c4_after_fixed = [("unused-variable", 1)] :=
  ⟨by decide, by decide⟩

/--
C5: exactly the `Analysis_Pylint` variant back-fills disappeared rules — a
rule occurring in `before` but not in `after` is mapped to minus its
before-count — while `Analysis_Cppcheck.match_errors` and the `stats.py`
`match_pylint_errors` produce only keys occurring in `after`.
-/
theorem C5_theorem (before after : List String) :
    (∀ name, name ∈ GitReview.Analysis_Pylint.get_errors before →
      ¬ name ∈ GitReview.Analysis_Pylint.get_errors after →
      lookupA name (GitReview.Analysis_Pylint.match_errors before after) =
        some (-((GitReview.Analysis_Pylint.get_errors before).count name : Int))) ∧
    (∀ p : String × Int, p ∈ GitReview.Analysis_Cppcheck.match_errors before after →
      p.1 ∈ GitReview.Analysis_Cppcheck.get_errors after) ∧
    (∀ p : String × Int, p ∈ Stats.match_pylint_errors before after →
      p.1 ∈ Stats.get_errors after) := by
  refine ⟨?_, ?_, ?_⟩
  · intro name hb ha
    simp only [GitReview.Analysis_Pylint.match_errors]
    exact lookupA_foldl_backStep _ _ ((mem_firstOccurrences _ _).mpr hb) ha
      (lookupA_posDiff_none ha)
  · intro p h
    simp only [GitReview.Analysis_Cppcheck.match_errors] at h
    exact (mem_posDiff h).1
  · intro p h
    simp only [Stats.match_pylint_errors] at h
    exact (mem_posDiff h).1

/-- C5 inputs for the witness: one pylint line whose rule disappears. -/
def c5_gone : List String := ["a.py:1: x (gone-rule)"]

/-- C5 inputs for the witness: one cppcheck finding line. -/
def c5_cpp : List String := ["[a.cpp:1]: (style) msg here"]

/-- C5 witness at concrete inputs. -/
theorem C5_witness :
    lookupA "gone-rule" (GitReview.Analysis_Pylint.match_errors c5_gone []) = some (-1) ∧
    "style" ∈ GitReview.Analysis_Cppcheck.get_errors c5_cpp ∧
    "gone-rule" ∈ Stats.get_errors c5_gone :=
  ⟨(C5_theorem c5_gone []).1 "gone-rule" (by decide) (by decide),
   (C5_theorem [] c5_cpp).2.1 ("style", 1) (by decide),
   (C5_theorem [] c5_gone).2.2 ("gone-rule", 1) (by decide)⟩

/--
C9: in every mapping returned by any of the three error-delta variants,
every value is a non-zero integer.
-/
theorem C9_theorem (before after : List String) (p : String × Int) :
    (p ∈ GitReview.Analysis_Pylint.match_errors before after → p.2 ≠ 0) ∧
    (p ∈ GitReview.Analysis_Cppcheck.match_errors before after → p.2 ≠ 0) ∧
    (p ∈ Stats.match_pylint_errors before after → p.2 ≠ 0) := by
  refine ⟨?_, ?_, ?_⟩
  · intro h
    simp only [GitReview.Analysis_Pylint.match_errors] at h
    rcases mem_foldl_backStep _ _ p h with h' | h'
    · exact (mem_posDiff h').2
    · have hmem : p.1 ∈ GitReview.Analysis_Pylint.get_errors before :=
        (mem_firstOccurrences _ _).mp h'.1
      have hpos : 0 < (GitReview.Analysis_Pylint.get_errors before).count p.1 :=
        List.count_pos_iff.mpr hmem
      rw [h'.2]
      omega
  · intro h
    simp only [GitReview.Analysis_Cppcheck.match_errors] at h
    exact (mem_posDiff h).2
  · intro h
    simp only [Stats.match_pylint_errors] at h
    exact (mem_posDiff h).2

/-- C9 input for the witness: a pylint line with a disappearing rule. -/
def c9_gone : List String := ["b.py:2: y (no-self-use)"]

/-- C9 input for the witness: a cppcheck finding line. -/
def c9_cpp : List String := ["[b.cpp:3]: (error) null pointer"]

/-- C9 witness: the three conjuncts applied at concrete inputs. -/
theorem C9_witness :
    ((-1 : Int) ≠ 0) ∧ ((1 : Int) ≠ 0) ∧ ((1 : Int) ≠ 0) :=
  ⟨(C9_theorem c9_gone [] ("no-self-use", -1)).1 (by decide),
   (C9_theorem [] c9_cpp ("error", 1)).2.1 (by decide),
   (C9_theorem [] c9_gone ("no-self-use", 1)).2.2 (by decide)⟩

/-! ### Claims about score extraction (C3, C8, C10) -/

/--
C3 counterexample: on the empty snapshot — what `run` produces when the
backend emits no usable output — `output[-1]` raises `IndexError` (modelled
as `none`) in both pylint score extractors, so extraction does *not* return
a value there.
-/
theorem C3_counterexample :
    GitReview.Analysis_Pylint.get_score [] = none ∧ Stats.get_pylint_score [] = none :=
  ⟨rfl, rfl⟩

/--
C3 amended: for every *non-empty* snapshot the pylint score extraction
returns a value without raising, and returns the sentinel `-100.0` when no
line matches the score pattern; the `stats.py` extractor is the same
function.  (On the empty snapshot it raises `IndexError` instead.)
-/
theorem C3_theorem (output : List String) (h : output ≠ []) :
    (∃ q : ℚ, GitReview.Analysis_Pylint.get_score output = some q) ∧
    Stats.get_pylint_score output = GitReview.Analysis_Pylint.get_score output ∧
    ((∀ l ∈ output, scoreLine l = none) →
      GitReview.Analysis_Pylint.get_score output = some (-100)) := by
  obtain ⟨last, hlast⟩ : ∃ l, output.getLast? = some l := by
    cases hL : output.getLast? with
    | none => exact absurd (List.getLast?_eq_none_iff.mp hL) h
    | some l => exact ⟨l, rfl⟩
  have hmem : last ∈ output := by
    obtain ⟨ys, rfl⟩ := List.getLast?_eq_some_iff.mp hlast
    simp
  refine ⟨?_, rfl, ?_⟩
  · unfold GitReview.Analysis_Pylint.get_score
    rw [hlast]
    cases hS : scoreLine last with
    | none => exact ⟨-100, by simp [hS]⟩
    | some q => exact ⟨q, by simp [hS]⟩
  · intro hall
    unfold GitReview.Analysis_Pylint.get_score
    rw [hlast]
    simp [hall last hmem]

/-- C3 witness input: a one-line snapshot with no score pattern. -/
def c3_output : List String := ["hello"]

/-- C3 witness: a concrete one-line snapshot with no score pattern yields
the sentinel. -/
theorem C3_witness :
    GitReview.Analysis_Pylint.get_score c3_output = some (-100) :=
  (C3_theorem c3_output (by decide)).2.2 (by decide)

/-- C8 counterexample input: a snapshot of exactly 1100 findings lines. -/
def c8_output : List String := List.replicate 1100 "line"

/--
C8 counterexample: the cppcheck synthetic score `10.0 - lineCount / 10.0`
*does* reach the sentinel: on a snapshot of exactly 1100 lines it equals
`-100.0`.
-/
theorem C8_counterexample :
    GitReview.Analysis_Cppcheck.get_score c8_output = -100 := by
  unfold GitReview.Analysis_Cppcheck.get_score c8_output
  rw [List.length_replicate]
  norm_num

/--
C8 amended: the cppcheck synthetic score equals the sentinel `-100.0`
exactly when the snapshot has 1100 lines; for every other line count the
sentinel is distinct from the achievable score.
-/
theorem C8_theorem (output : List String) :
    GitReview.Analysis_Cppcheck.get_score output = -100 ↔ output.length = 1100 := by
  unfold GitReview.Analysis_Cppcheck.get_score
  constructor
  · intro h
    have h10 : (output.length : ℚ) = 1100 := by linarith
    exact_mod_cast h10
  · intro h
    rw [h]
    norm_num

/-- C8 witness: a 5-line snapshot does not score the sentinel. -/
theorem C8_witness :
    GitReview.Analysis_Cppcheck.get_score (List.replicate 5 "x") ≠ -100 :=
  fun h => absurd ((C8_theorem (List.replicate 5 "x")).mp h) (by decide)

/-- Any successful `scoreRest` capture is a value `d.dd` with a single digit
before the point, hence at most `9.99`. -/
theorem scoreRest_le (l : List Char) (q : ℚ) (h : scoreRest l = some q) :
    q ≤ 999 / 100 := by
  unfold scoreRest at h
  split at h
  · split at h
    · rename_i d0 c1 d1 d2 c4 c5 c6 rest hcond
      obtain ⟨hd0, _, hd1, hd2, _, _, _⟩ := hcond
      have b0 : digitVal d0 ≤ 9 := by
        unfold Char.isDigit at hd0
        simp only [Bool.and_eq_true, decide_eq_true_eq] at hd0
        have : d0.val.toNat ≤ 57 := hd0.2
        unfold digitVal Char.toNat
        omega
      have b1 : digitVal d1 ≤ 9 := by
        unfold Char.isDigit at hd1
        simp only [Bool.and_eq_true, decide_eq_true_eq] at hd1
        have : d1.val.toNat ≤ 57 := hd1.2
        unfold digitVal Char.toNat
        omega
      have b2 : digitVal d2 ≤ 9 := by
        unfold Char.isDigit at hd2
        simp only [Bool.and_eq_true, decide_eq_true_eq] at hd2
        have : d2.val.toNat ≤ 57 := hd2.2
        unfold digitVal Char.toNat
        omega
      injection h with h'
      subst h'
      have hn : (100 * digitVal d0 + 10 * digitVal d1 + digitVal d2 : ℕ) ≤ 999 := by omega
      have hq : ((100 * digitVal d0 + 10 * digitVal d1 + digitVal d2 : ℕ) : ℚ) ≤ 999 := by
        exact_mod_cast hn
      exact (div_le_div_iff_of_pos_right (by norm_num)).mpr hq
    · exact absurd h (by simp)
  · exact absurd h (by simp)

/-- The bound transfers through the greedy `.*` search: any successful score
capture of a whole line is at most `9.99`. -/
theorem scoreLine_le (s : String) (q : ℚ) (h : scoreLine s = some q) : q ≤ 999 / 100 := by
  unfold scoreLine at h
  revert h
  generalize s.toList = l
  induction l with
  | nil => intro h; exact scoreRest_le _ _ h
  | cons c cs ih =>
    intro h
    unfold lastMatchB at h
    split at h
    · exact scoreRest_le _ _ h
    · split at h
      · rename_i v hv
        injection h with h'
        subst h'
        exact ih hv
      · exact scoreRest_le _ _ h

/--
C10: the pylint score pattern captures exactly one digit before the decimal
point and its greedy prefix absorbs extra leading digits: on the perfect
two-digit rating line both pylint score extractors return `0.0`, and no
snapshot whatsoever can make the pylint extractor return `10.0`.
-/
theorem C10_theorem :
    GitReview.Analysis_Pylint.get_score ["Your code has been rated at 10.00/10"] = some 0 ∧
    Stats.get_pylint_score ["Your code has been rated at 10.00/10"] = some 0 ∧
    ∀ output : List String, GitReview.Analysis_Pylint.get_score output ≠ some 10 := by
  have hconc : GitReview.Analysis_Pylint.get_score ["Your code has been rated at 10.00/10"] =
      some (((0 : ℕ) : ℚ) / 100) := rfl
  have hzero : (((0 : ℕ) : ℚ) / 100) = 0 := by norm_num
  refine ⟨by rw [hconc, hzero], by rw [Stats.get_pylint_score, hconc, hzero], ?_⟩
  intro output h
  cases hL : output.getLast? with
  | none =>
    simp only [GitReview.Analysis_Pylint.get_score, hL] at h
    exact Option.noConfusion h
  | some last =>
    simp only [GitReview.Analysis_Pylint.get_score, hL] at h
    cases hS : scoreLine last with
    | none =>
      simp only [hS, Option.some.injEq] at h
      norm_num at h
    | some q =>
      simp only [hS, Option.some.injEq] at h
      have hb := scoreLine_le last q hS
      rw [h] at hb
      norm_num at hb

/-- C10 witness: a concrete snapshot on which the extractor (provably) does
not return `10.0`. -/
theorem C10_witness :
    GitReview.Analysis_Pylint.get_score ["ok 9.99/10"] ≠ some 10 :=
  C10_theorem.2.2 ["ok 9.99/10"]

/-! ### Helper lemmas about the walk iterations -/

theorem run_process_fail {p : ProcResult} (h : p.exitCode ≠ 0) :
    run_process true p = .error .calledProcessError := by
  simp [run_process, h]

theorem run_process_error_eq {c : Bool} {p : ProcResult} {e : PyErr}
    (h : run_process c p = .error e) : e = .calledProcessError := by
  unfold run_process at h
  split at h
  · injection h with h'
    exact h'.symm
  · exact Except.noConfusion h

/-- In the gitreview iteration, a recorded step always has
`lines_changed > 0` (the only recording site sits under the
`0 < lines_changed` branch). -/
theorem review_iteration_recorded {tool : GitReview.AnalysisTool} {inp : IterInput}
    {s : ReviewState} {r : IterResult} {d : ℚ × ℕ × List (String × Int)}
    (h : GitReview.review_iteration tool inp s = .ok r) (hr : r.recorded = some d) :
    0 < d.2.1 := by
  simp only [GitReview.review_iteration] at h
  split at h
  · exact Except.noConfusion h
  · split at h
    · exact Except.noConfusion h
    · split at h
      · exact Except.noConfusion h
      · split at h
        · exact Except.noConfusion h
        · split at h
          · split at h
            · exact Except.noConfusion h
            · injection h with h'
              subst h'
              simp only [Option.some.injEq] at hr
              subst hr
              assumption
          · injection h with h'
            subst h'
            exact absurd hr (by simp)

/-- In the stats.py iteration, a recorded step always has
`lines_changed > 0` and a score delta of magnitude at least `0.005`. -/
theorem stats_iteration_recorded {inp : IterInput} {s : ReviewState} {r : IterResult}
    {d : ℚ × ℕ × List (String × Int)}
    (h : Stats.stats_iteration inp s = .ok r) (hr : r.recorded = some d) :
    0 < d.2.1 ∧ 1 / 200 ≤ |d.1| := by
  simp only [Stats.stats_iteration] at h
  split at h
  · exact Except.noConfusion h
  · split at h
    · exact Except.noConfusion h
    · split at h
      · exact Except.noConfusion h
      · split at h
        · split at h
          · exact Except.noConfusion h
          · split at h
            · injection h with h'
              subst h'
              exact absurd hr (by simp)
            · injection h with h'
              subst h'
              simp only [Option.some.injEq] at hr
              subst hr
              refine ⟨by assumption, ?_⟩
              exact le_of_not_lt (by assumption)
        · injection h with h'
          subst h'
          exact absurd hr (by simp)

/-- Memoization in the gitreview iteration: with `lines_changed = 0` the
tool is not re-run and the before snapshot/score and error delta are
carried; and unconditionally the iteration ends with `after = before`. -/
theorem review_iteration_memo {tool : GitReview.AnalysisTool} {inp : IterInput}
    {s : ReviewState} {r : IterResult}
    (h : GitReview.review_iteration tool inp s = .ok r) :
    (GitReview.lines_changed tool inp = 0 →
      r.ran = false ∧ r.state.before_output = s.before_output ∧
      r.state.before_score = s.before_score ∧ r.state.diff_errors = s.diff_errors) ∧
    (r.state.after_output = r.state.before_output ∧
      r.state.after_score = r.state.before_score) := by
  simp only [GitReview.review_iteration] at h
  split at h
  · exact Except.noConfusion h
  · split at h
    · exact Except.noConfusion h
    · split at h
      · exact Except.noConfusion h
      · split at h
        · exact Except.noConfusion h
        · split at h
          · split at h
            · exact Except.noConfusion h
            · injection h with h'
              subst h'
              refine ⟨fun h0 => absurd h0 (by omega), ⟨rfl, rfl⟩⟩
          · injection h with h'
            subst h'
            exact ⟨fun _ => ⟨rfl, rfl, rfl, rfl⟩, ⟨rfl, rfl⟩⟩

/-- Memoization in the stats.py iteration, as for gitreview. -/
theorem stats_iteration_memo {inp : IterInput} {s : ReviewState} {r : IterResult}
    (h : Stats.stats_iteration inp s = .ok r) :
    (Stats.lines_changed inp = 0 →
      r.ran = false ∧ r.state.before_output = s.before_output ∧
      r.state.before_score = s.before_score ∧ r.state.diff_errors = s.diff_errors) ∧
    (r.state.after_output = r.state.before_output ∧
      r.state.after_score = r.state.before_score) := by
  simp only [Stats.stats_iteration] at h
  split at h
  · exact Except.noConfusion h
  · split at h
    · exact Except.noConfusion h
    · split at h
      · exact Except.noConfusion h
      · split at h
        · split at h
          · exact Except.noConfusion h
          · split at h
            · injection h with h'
              subst h'
              refine ⟨fun h0 => absurd h0 (by omega), ⟨rfl, rfl⟩⟩
            · injection h with h'
              subst h'
              refine ⟨fun h0 => absurd h0 (by omega), ⟨rfl, rfl⟩⟩
        · injection h with h'
          subst h'
          exact ⟨fun _ => ⟨rfl, rfl, rfl, rfl⟩, ⟨rfl, rfl⟩⟩

/-- Any failing git primitive is fatal for the gitreview iteration: the
`CalledProcessError` surfaces before anything else can happen. -/
theorem review_iteration_fatal {tool : GitReview.AnalysisTool} {inp : IterInput}
    {s : ReviewState}
    (h : inp.authorProc.exitCode ≠ 0 ∨ inp.hashProc.exitCode ≠ 0 ∨
      inp.diffProc.exitCode ≠ 0 ∨ inp.resetProc.exitCode ≠ 0) :
    GitReview.review_iteration tool inp s = .error .calledProcessError := by
  simp only [GitReview.review_iteration]
  cases hA : run_process true inp.authorProc with
  | error e => rw [run_process_error_eq hA]
  | ok a =>
    cases hH : run_process true inp.hashProc with
    | error e => rw [run_process_error_eq hH]
    | ok b =>
      cases hD : run_process true inp.diffProc with
      | error e => rw [run_process_error_eq hD]
      | ok c =>
        cases hR : run_process true inp.resetProc with
        | error e => rw [run_process_error_eq hR]
        | ok d =>
          exfalso
          have hA0 : inp.authorProc.exitCode = 0 := by
            by_contra hx
            rw [run_process_fail hx] at hA
            exact Except.noConfusion hA
          have hH0 : inp.hashProc.exitCode = 0 := by
            by_contra hx
            rw [run_process_fail hx] at hH
            exact Except.noConfusion hH
          have hD0 : inp.diffProc.exitCode = 0 := by
            by_contra hx
            rw [run_process_fail hx] at hD
            exact Except.noConfusion hD
          have hR0 : inp.resetProc.exitCode = 0 := by
            by_contra hx
            rw [run_process_fail hx] at hR
            exact Except.noConfusion hR
          rcases h with h | h | h | h <;> exact h (by assumption)

/-- An iteration error aborts the whole gitreview walk with that error. -/
theorem review_walk_fatal {tool : GitReview.AnalysisTool} {inp : IterInput}
    {rest : List IterInput} {s : ReviewState} {e : PyErr}
    (h : GitReview.review_iteration tool inp s = .error e) :
    GitReview.review_walk tool (inp :: rest) s = .error e := by
  simp only [GitReview.review_walk, h]

/-- In the stats.py iteration only the author, hash and reset primitives are
checked; any of them failing is fatal in the same way. -/
theorem stats_iteration_fatal {inp : IterInput} {s : ReviewState}
    (h : inp.authorProc.exitCode ≠ 0 ∨ inp.hashProc.exitCode ≠ 0 ∨
      inp.resetProc.exitCode ≠ 0) :
    Stats.stats_iteration inp s = .error .calledProcessError := by
  simp only [Stats.stats_iteration]
  cases hA : run_process true inp.authorProc with
  | error e => rw [run_process_error_eq hA]
  | ok a =>
    cases hH : run_process true inp.hashProc with
    | error e => rw [run_process_error_eq hH]
    | ok b =>
      cases hR : run_process true inp.resetProc with
      | error e => rw [run_process_error_eq hR]
      | ok d =>
        exfalso
        have hA0 : inp.authorProc.exitCode = 0 := by
          by_contra hx
          rw [run_process_fail hx] at hA
          exact Except.noConfusion hA
        have hH0 : inp.hashProc.exitCode = 0 := by
          by_contra hx
          rw [run_process_fail hx] at hH
          exact Except.noConfusion hH
        have hR0 : inp.resetProc.exitCode = 0 := by
          by_contra hx
          rw [run_process_fail hx] at hR
          exact Except.noConfusion hR
        rcases h with h | h | h <;> exact h (by assumption)

/-- The invariant backing C6: every author present in the stats dict has a
non-empty list of recorded steps, each with strictly positive
`linesChanged`. -/
def statsWF (stats : List (String × List (ℚ × ℕ × List (String × Int)))) : Prop :=
  ∀ p ∈ stats, p.2 ≠ [] ∧ ∀ d ∈ p.2, 0 < d.2.1

theorem statsWF_nil : statsWF [] := by
  intro p hp
  simp at hp

theorem statsAdd_WF {stats : List (String × List (ℚ × ℕ × List (String × Int)))}
    {a : String} {d : ℚ × ℕ × List (String × Int)}
    (hs : statsWF stats) (hd : 0 < d.2.1) : statsWF (statsAdd stats a d) := by
  unfold statsAdd
  split
  · intro p hp
    rcases List.mem_append.mp hp with h | h
    · exact hs p h
    · rcases List.mem_singleton.mp h with rfl
      refine ⟨by simp, ?_⟩
      intro x hx
      rcases List.mem_singleton.mp hx with rfl
      exact hd
  · intro p hp
    rcases List.mem_map.mp hp with ⟨q, hq, rfl⟩
    by_cases hqa : q.1 = a
    · rw [if_pos hqa]
      refine ⟨by simp, ?_⟩
      intro x hx
      rcases List.mem_append.mp hx with h | h
      · exact (hs q hq).2 x h
      · rcases List.mem_singleton.mp h with rfl
        exact hd
    · rw [if_neg hqa]
      exact hs q hq

theorem review_iteration_WF {tool : GitReview.AnalysisTool} {inp : IterInput}
    {s : ReviewState} {r : IterResult} (hs : statsWF s.stats)
    (h : GitReview.review_iteration tool inp s = .ok r) : statsWF r.state.stats := by
  simp only [GitReview.review_iteration] at h
  split at h
  · exact Except.noConfusion h
  · split at h
    · exact Except.noConfusion h
    · split at h
      · exact Except.noConfusion h
      · split at h
        · exact Except.noConfusion h
        · split at h
          · split at h
            · exact Except.noConfusion h
            · injection h with h'
              subst h'
              exact statsAdd_WF hs (by assumption)
          · injection h with h'
            subst h'
            exact hs

theorem stats_iteration_WF {inp : IterInput} {s : ReviewState} {r : IterResult}
    (hs : statsWF s.stats)
    (h : Stats.stats_iteration inp s = .ok r) : statsWF r.state.stats := by
  simp only [Stats.stats_iteration] at h
  split at h
  · exact Except.noConfusion h
  · split at h
    · exact Except.noConfusion h
    · split at h
      · exact Except.noConfusion h
      · split at h
        · split at h
          · exact Except.noConfusion h
          · split at h
            · injection h with h'
              subst h'
              exact hs
            · injection h with h'
              subst h'
              exact statsAdd_WF hs (by assumption)
        · injection h with h'
          subst h'
          exact hs

theorem review_walk_WF {tool : GitReview.AnalysisTool} :
    ∀ (inputs : List IterInput) (s s' : ReviewState), statsWF s.stats →
      GitReview.review_walk tool inputs s = .ok s' → statsWF s'.stats := by
  intro inputs
  induction inputs with
  | nil =>
    intro s s' hs h
    simp only [GitReview.review_walk] at h
    injection h with h'
    subst h'
    exact hs
  | cons inp rest ih =>
    intro s s' hs h
    simp only [GitReview.review_walk] at h
    cases hI : GitReview.review_iteration tool inp s with
    | error e =>
      rw [hI] at h
      exact Except.noConfusion h
    | ok r =>
      rw [hI] at h
      exact ih _ _ (review_iteration_WF hs hI) h

theorem stats_walk_WF :
    ∀ (inputs : List IterInput) (s s' : ReviewState), statsWF s.stats →
      Stats.stats_walk inputs s = .ok s' → statsWF s'.stats := by
  intro inputs
  induction inputs with
  | nil =>
    intro s s' hs h
    simp only [Stats.stats_walk] at h
    injection h with h'
    subst h'
    exact hs
  | cons inp rest ih =>
    intro s s' hs h
    simp only [Stats.stats_walk] at h
    cases hI : Stats.stats_iteration inp s with
    | error e =>
      rw [hI] at h
      exact Except.noConfusion h
    | ok r =>
      rw [hI] at h
      exact ih _ _ (stats_iteration_WF hs hI) h

theorem review_init_WF {tool : GitReview.AnalysisTool} {p : ProcResult} {s : ReviewState}
    (h : GitReview.review_init tool p = .ok s) : statsWF s.stats := by
  simp only [GitReview.review_init] at h
  split at h
  · exact Except.noConfusion h
  · injection h with h'
    subst h'
    exact statsWF_nil

theorem stats_init_WF {p : ProcResult} {s : ReviewState}
    (h : Stats.stats_init p = .ok s) : statsWF s.stats := by
  simp only [Stats.stats_init] at h
  split at h
  · exact Except.noConfusion h
  · injection h with h'
    subst h'
    exact statsWF_nil

/-- From the invariant, the per-author change total is positive. -/
theorem statsWF_sum_pos {stats : List (String × List (ℚ × ℕ × List (String × Int)))}
    (hs : statsWF stats) {author : String} {results : List (ℚ × ℕ × List (String × Int))}
    (hmem : (author, results) ∈ stats) :
    0 < (results.map (fun t => t.2.1)).sum := by
  obtain ⟨hne, hall⟩ := hs (author, results) hmem
  refine List.sum_pos _ ?_ ?_
  · intro x hx
    rcases List.mem_map.mp hx with ⟨t, ht, rfl⟩
    exact hall t ht
  · simp only [ne_eq, List.map_eq_nil_iff]
    exact hne

/-! ### Concrete walk runs used by the walk-level claims -/

/-- A pylint summary line rated 7.50. -/
def line75 : String := "Your code has been rated at 7.50/10"

/-- A pylint summary line rated 6.00. -/
def line60 : String := "Your code has been rated at 6.00/10"

/-- The score the extractor produces for `line75` (the raw term `750/100`). -/
def q75 : ℚ := ((750 : ℕ) : ℚ) / 100

/-- The score the extractor produces for `line60`. -/
def q60 : ℚ := ((600 : ℕ) : ℚ) / 100

/-- The loop state after initialization on a tool run printing `line75`. -/
def walkState0 : ReviewState := ⟨[line75], q75, [line75], q75, [], []⟩

/-- Iteration input: a 3-line `.py` change, re-analysis reports `line75`
again (score unchanged). -/
def wSame : IterInput :=
  ⟨⟨0, "alice"⟩, ⟨0, "abc123"⟩, ⟨0, "a.py | 3 +++"⟩, ⟨0, ""⟩, ⟨0, line75⟩⟩

/-- Iteration input: a 3-line `.py` change, re-analysis reports `line60`
(score drops by 1.5). -/
def wDown : IterInput :=
  ⟨⟨0, "alice"⟩, ⟨0, "abc123"⟩, ⟨0, "a.py | 3 +++"⟩, ⟨0, ""⟩, ⟨0, line60⟩⟩

/-- Iteration input: only a non-`.py` file changed. -/
def wDoc : IterInput :=
  ⟨⟨0, "bob"⟩, ⟨0, "def456"⟩, ⟨0, "README.md | 2 +"⟩, ⟨0, ""⟩, ⟨0, line75⟩⟩

/-- Iteration input: like `wDown` but the `git diff` subprocess exits 1. -/
def wDiffFail : IterInput :=
  ⟨⟨0, "alice"⟩, ⟨0, "abc123"⟩, ⟨1, "a.py | 3 +++"⟩, ⟨0, ""⟩, ⟨0, line60⟩⟩

/-- Iteration input whose author query exits 1. -/
def wAuthorFail : IterInput := ⟨⟨1, ""⟩, ⟨0, ""⟩, ⟨0, ""⟩, ⟨0, ""⟩, ⟨0, ""⟩⟩

/-- Result of the gitreview iteration on `wSame` from `walkState0`: the step
is recorded although its score delta is `0`. -/
def resSame : IterResult :=
  ⟨⟨[line75], q75, [line75], q75, [], [("alice", [(q75 - q75, 3, [])])]⟩, true,
    some (q75 - q75, 3, [])⟩

/-- Result of the stats.py iteration on `wDown` from `walkState0`. -/
def resDown : IterResult :=
  ⟨⟨[line60], q60, [line60], q60, [], [("alice", [(q75 - q60, 3, [])])]⟩, true,
    some (q75 - q60, 3, [])⟩

/-- Result of either iteration on `wDoc` from `walkState0`: nothing re-run,
nothing recorded. -/
def resSkip : IterResult := ⟨walkState0, false, none⟩

theorem gr_init_conc :
    GitReview.review_init GitReview.pylintTool ⟨0, line75⟩ = .ok walkState0 := rfl

theorem st_init_conc : Stats.stats_init ⟨0, line75⟩ = .ok walkState0 := rfl

theorem gr_iter_same :
    GitReview.review_iteration GitReview.pylintTool wSame walkState0 = .ok resSame := rfl

theorem gr_iter_doc :
    GitReview.review_iteration GitReview.pylintTool wDoc walkState0 = .ok resSkip := rfl

theorem st_iter_doc : Stats.stats_iteration wDoc walkState0 = .ok resSkip := rfl

theorem st_iter_down : Stats.stats_iteration wDown walkState0 = .ok resDown := by
  have hlc : Stats.lines_changed wDown = 3 := by decide
  have hout : splitLines wDown.runProc.stdout = [line60] := by decide
  have hsc : Stats.get_pylint_score [line60] = some q60 := rfl
  have herr : Stats.match_pylint_errors [line60] walkState0.after_output = [] := by decide
  have habs : ¬ (|q75 - q60| < (1 : ℚ) / 200) := by
    have h32 : q75 - q60 = 3 / 2 := by
      rw [q75, q60]
      norm_num
    rw [h32, abs_of_nonneg (by norm_num : (0 : ℚ) ≤ 3 / 2)]
    norm_num
  simp only [Stats.stats_iteration, run_process]
  norm_num [hlc, hout, hsc, herr]
  simp only [wDown, walkState0]
  norm_num [statsAdd, lookupA, resDown, habs]

theorem st_iter_diffFail : Stats.stats_iteration wDiffFail walkState0 = .ok resDown := by
  have hlc : Stats.lines_changed wDiffFail = 3 := by decide
  have hout : splitLines wDiffFail.runProc.stdout = [line60] := by decide
  have hsc : Stats.get_pylint_score [line60] = some q60 := rfl
  have herr : Stats.match_pylint_errors [line60] walkState0.after_output = [] := by decide
  have habs : ¬ (|q75 - q60| < (1 : ℚ) / 200) := by
    have h32 : q75 - q60 = 3 / 2 := by
      rw [q75, q60]
      norm_num
    rw [h32, abs_of_nonneg (by norm_num : (0 : ℚ) ≤ 3 / 2)]
    norm_num
  simp only [Stats.stats_iteration, run_process]
  norm_num [hlc, hout, hsc, herr]
  simp only [wDiffFail, walkState0]
  norm_num [statsAdd, lookupA, resDown, habs]

theorem gr_walk_same :
    (GitReview.review_init GitReview.pylintTool ⟨0, line75⟩).bind
      (GitReview.review_walk GitReview.pylintTool [wSame]) = .ok resSame.state := rfl

theorem st_walk_down :
    (Stats.stats_init ⟨0, line75⟩).bind (Stats.stats_walk [wDown]) = .ok resDown.state := by
  rw [st_init_conc]
  show Stats.stats_walk [wDown] walkState0 = .ok resDown.state
  simp only [Stats.stats_walk, st_iter_down]

theorem st_walk_diffFail :
    (Stats.stats_init ⟨0, line75⟩).bind (Stats.stats_walk [wDiffFail]) = .ok resDown.state := by
  rw [st_init_conc]
  show Stats.stats_walk [wDiffFail] walkState0 = .ok resDown.state
  simp only [Stats.stats_walk, st_iter_diffFail]

/-! ### Claims about the walk (C1, C2, C6, C7) -/

/--
C1 counterexample: in the `gitreview.py` walk — starting from the
initialization state itself — an iteration with `linesChanged = 3` and score
delta `0` (magnitude not exceeding `0.005`) is recorded into the per-author
stats, so the recording rule is *not* `linesChanged > 0 AND |scoreDelta| >
0.005` for every walk.
-/
theorem C1_counterexample :
    GitReview.review_init GitReview.pylintTool ⟨0, line75⟩ = .ok walkState0 ∧
    GitReview.review_iteration GitReview.pylintTool wSame walkState0 = .ok resSame ∧
    resSame.recorded = some (q75 - q75, 3, []) ∧ ¬ ((1 : ℚ) / 200 < |q75 - q75|) := by
  refine ⟨rfl, rfl, rfl, ?_⟩
  have h0 : q75 - q75 = 0 := by
    rw [q75]
    ring
  rw [h0]
  norm_num

/--
C1 amended: the two walks use different recording rules.  In the
`gitreview.py` walk a step is recorded exactly on `linesChanged > 0`, with
no epsilon test on the score delta; in the `stats.py` walk a step is
recorded only if `linesChanged > 0` *and* `|scoreDelta| ≥ 0.005`.  In both
walks every dropped iteration contributes nothing to the stats.
-/
theorem C1_theorem :
    (∀ (tool : GitReview.AnalysisTool) (inp : IterInput) (s : ReviewState) (r : IterResult)
        (d : ℚ × ℕ × List (String × Int)),
      GitReview.review_iteration tool inp s = .ok r → r.recorded = some d → 0 < d.2.1) ∧
    (∀ (inp : IterInput) (s : ReviewState) (r : IterResult)
        (d : ℚ × ℕ × List (String × Int)),
      Stats.stats_iteration inp s = .ok r → r.recorded = some d →
        0 < d.2.1 ∧ 1 / 200 ≤ |d.1|) :=
  ⟨fun _ _ _ _ _ h hr => review_iteration_recorded h hr,
   fun _ _ _ _ h hr => stats_iteration_recorded h hr⟩

/-- C1 witness: the amended rule applied to the two concrete recorded
iterations. -/
theorem C1_witness :
    0 < (3 : ℕ) ∧ (0 < (3 : ℕ) ∧ (1 : ℚ) / 200 ≤ |q75 - q60|) :=
  ⟨C1_theorem.1 GitReview.pylintTool wSame walkState0 resSame (q75 - q75, 3, []) rfl rfl,
   C1_theorem.2 wDown walkState0 resDown (q75 - q60, 3, []) st_iter_down rfl⟩

/--
C2: in both walks, an iteration with `linesChanged = 0` performs no
re-analysis and carries the before snapshot, before score and error delta
unchanged from the prior iteration; and every iteration ends with the after
snapshot and after score equal to its before snapshot and before score.
-/
theorem C2_theorem :
    (∀ (tool : GitReview.AnalysisTool) (inp : IterInput) (s : ReviewState) (r : IterResult),
      GitReview.review_iteration tool inp s = .ok r →
      ((GitReview.lines_changed tool inp = 0 →
        r.ran = false ∧ r.state.before_output = s.before_output ∧
        r.state.before_score = s.before_score ∧ r.state.diff_errors = s.diff_errors) ∧
       (r.state.after_output = r.state.before_output ∧
        r.state.after_score = r.state.before_score))) ∧
    (∀ (inp : IterInput) (s : ReviewState) (r : IterResult),
      Stats.stats_iteration inp s = .ok r →
      ((Stats.lines_changed inp = 0 →
        r.ran = false ∧ r.state.before_output = s.before_output ∧
        r.state.before_score = s.before_score ∧ r.state.diff_errors = s.diff_errors) ∧
       (r.state.after_output = r.state.before_output ∧
        r.state.after_score = r.state.before_score))) :=
  ⟨fun _ _ _ _ h => review_iteration_memo h, fun _ _ _ h => stats_iteration_memo h⟩

/-- C2 witness: the memoization contract at a concrete iteration whose diff
touches no watched file. -/
theorem C2_witness :
    ((resSkip.ran = false ∧ resSkip.state.before_output = walkState0.before_output ∧
      resSkip.state.before_score = walkState0.before_score ∧
      resSkip.state.diff_errors = walkState0.diff_errors) ∧
     (resSkip.state.after_output = resSkip.state.before_output ∧
      resSkip.state.after_score = resSkip.state.before_score)) ∧
    ((resSkip.ran = false ∧ resSkip.state.before_output = walkState0.before_output ∧
      resSkip.state.before_score = walkState0.before_score ∧
      resSkip.state.diff_errors = walkState0.diff_errors) ∧
     (resSkip.state.after_output = resSkip.state.before_output ∧
      resSkip.state.after_score = resSkip.state.before_score)) :=
  ⟨⟨(C2_theorem.1 GitReview.pylintTool wDoc walkState0 resSkip gr_iter_doc).1 (by decide),
    (C2_theorem.1 GitReview.pylintTool wDoc walkState0 resSkip gr_iter_doc).2⟩,
   ⟨(C2_theorem.2 wDoc walkState0 resSkip st_iter_doc).1 (by decide),
    (C2_theorem.2 wDoc walkState0 resSkip st_iter_doc).2⟩⟩

/--
C6: in both walks, every author of the stats mapping reachable from
initialization has a strictly positive total of recorded `linesChanged`, so
the `score / changes` ratio of the final report never divides by zero.
-/
theorem C6_theorem :
    (∀ (tool : GitReview.AnalysisTool) (initProc : ProcResult) (inputs : List IterInput)
        (s' : ReviewState) (author : String)
        (results : List (ℚ × ℕ × List (String × Int))),
      (GitReview.review_init tool initProc).bind (GitReview.review_walk tool inputs) = .ok s' →
      (author, results) ∈ s'.stats → 0 < (GitReview.output_row results).2.1) ∧
    (∀ (initProc : ProcResult) (inputs : List IterInput) (s' : ReviewState) (author : String)
        (results : List (ℚ × ℕ × List (String × Int))),
      (Stats.stats_init initProc).bind (Stats.stats_walk inputs) = .ok s' →
      (author, results) ∈ s'.stats → 0 < (Stats.output_row results).2.1) := by
  constructor
  · intro tool initProc inputs s' author results h hmem
    cases hI : GitReview.review_init tool initProc with
    | error e =>
      rw [hI] at h
      exact Except.noConfusion h
    | ok s0 =>
      rw [hI] at h
      have hw : GitReview.review_walk tool inputs s0 = .ok s' := h
      have hwf := review_walk_WF inputs s0 s' (review_init_WF hI) hw
      have hpos := statsWF_sum_pos hwf hmem
      simpa [GitReview.output_row] using hpos
  · intro initProc inputs s' author results h hmem
    cases hI : Stats.stats_init initProc with
    | error e =>
      rw [hI] at h
      exact Except.noConfusion h
    | ok s0 =>
      rw [hI] at h
      have hw : Stats.stats_walk inputs s0 = .ok s' := h
      have hwf := stats_walk_WF inputs s0 s' (stats_init_WF hI) hw
      have hpos := statsWF_sum_pos hwf hmem
      simpa [Stats.output_row, GitReview.output_row] using hpos

/-- C6 witness: the positive-changes total at the two concrete one-step
walks. -/
theorem C6_witness :
    0 < (GitReview.output_row [(q75 - q75, 3, [])]).2.1 ∧
    0 < (Stats.output_row [(q75 - q60, 3, [])]).2.1 :=
  ⟨C6_theorem.1 GitReview.pylintTool ⟨0, line75⟩ [wSame] resSame.state "alice"
      [(q75 - q75, 3, [])] gr_walk_same (List.mem_singleton.mpr rfl),
   C6_theorem.2 ⟨0, line75⟩ [wDown] resDown.state "alice"
      [(q75 - q60, 3, [])] st_walk_down (List.mem_singleton.mpr rfl)⟩

/--
C7 counterexample: in the `stats.py` walk the change-statistics git
primitive is run without `check=True`: with its exit code 1 the iteration
still succeeds (no error is raised), the step is even recorded, and the
whole walk completes and produces its report.
-/
theorem C7_counterexample :
    wDiffFail.diffProc.exitCode ≠ 0 ∧
    Stats.stats_iteration wDiffFail walkState0 = .ok resDown ∧
    (Stats.stats_init ⟨0, line75⟩).bind (Stats.stats_walk [wDiffFail]) = .ok resDown.state :=
  ⟨by decide, st_iter_diffFail, st_walk_diffFail⟩

/--
C7 amended: in `gitreview.py` all four git primitives propagate a non-zero
exit immediately as `CalledProcessError` and the walk aborts with no final
state; in `stats.py` the author, hash and reset primitives do the same, but
the change-statistics query's exit status is ignored.
-/
theorem C7_theorem :
    (∀ (tool : GitReview.AnalysisTool) (inp : IterInput) (s : ReviewState),
      (inp.authorProc.exitCode ≠ 0 ∨ inp.hashProc.exitCode ≠ 0 ∨
       inp.diffProc.exitCode ≠ 0 ∨ inp.resetProc.exitCode ≠ 0) →
      GitReview.review_iteration tool inp s = .error .calledProcessError) ∧
    (∀ (tool : GitReview.AnalysisTool) (inp : IterInput) (rest : List IterInput)
        (s : ReviewState) (e : PyErr),
      GitReview.review_iteration tool inp s = .error e →
      GitReview.review_walk tool (inp :: rest) s = .error e) ∧
    (∀ (inp : IterInput) (s : ReviewState),
      (inp.authorProc.exitCode ≠ 0 ∨ inp.hashProc.exitCode ≠ 0 ∨
       inp.resetProc.exitCode ≠ 0) →
      Stats.stats_iteration inp s = .error .calledProcessError) :=
  ⟨fun _ _ _ h => review_iteration_fatal h,
   fun _ _ _ _ _ h => review_walk_fatal h,
   fun _ _ h => stats_iteration_fatal h⟩

/-- C7 witness: a failing author query is fatal to the iteration and the
walk in gitreview, and to the stats.py iteration. -/
theorem C7_witness :
    GitReview.review_iteration GitReview.pylintTool wAuthorFail walkState0 =
      .error .calledProcessError ∧
    GitReview.review_walk GitReview.pylintTool [wAuthorFail] walkState0 =
      .error .calledProcessError ∧
    Stats.stats_iteration wAuthorFail walkState0 = .error .calledProcessError :=
  ⟨C7_theorem.1 GitReview.pylintTool wAuthorFail walkState0 (Or.inl (by decide)),
   C7_theorem.2.1 GitReview.pylintTool wAuthorFail [] walkState0 .calledProcessError
     (C7_theorem.1 GitReview.pylintTool wAuthorFail walkState0 (Or.inl (by decide))),
   C7_theorem.2.2 wAuthorFail walkState0 (Or.inl (by decide))⟩
